import Mathlib

/-!
Shallow embedding of the client-go-learning repository (src/main.go and the
second, unnamed main variant).  The program lists Kubernetes resources through
a dynamic client and filters them with a compiled gojq query.

The embedding keeps the Go control flow:

* `GetResourcesDynamically` passes the upstream `List` call's result through.
* `GetResourcesByJq` parses the query, lists the resources, converts each item
  to raw JSON, runs the query, and for every result value either aborts on an
  error value, prints a diagnostic on a non-boolean value, or appends the item
  on a boolean `true`.
* `GetContainerImage` (unnamed variant) loops over the listed items, where
  every path of the loop body returns.

Effects (the `List` network call, the per-item conversion and evaluation, and
the `fmt.Println` diagnostic) are recorded as an explicit event trace so that
"the listing is never invoked" and "a diagnostic is emitted" are statable.
The external gojq engine and the unstructured converter are parameters:
`parse`, `fromUnstructured` and `run` stand for `gojq.Parse`,
`runtime.DefaultUnstructuredConverter.FromUnstructured` and `(*gojq.Query).Run`.
-/

/-- One value produced by the gojq result iterator, as the Go loop inspects it:
an error value (`result.(error)` succeeds), a boolean (`result.(bool)`
succeeds), or anything else (the non-boolean case). -/
inductive JqResult (ε : Type) where
  | errVal (e : ε)
  | boolVal (b : Bool)
  | nonBool
deriving DecidableEq, Repr

/-- Observable effects of one `GetResourcesByJq` call: the dynamic `List`
network call, the per-item `FromUnstructured` conversion, the per-item
`query.Run` evaluation, and the `fmt.Println("Query returned non-boolean
value")` diagnostic. -/
inductive Ev (δ : Type) where
  | listCalled
  | converted (d : δ)
  | evaluated (d : δ)
  | diag
deriving DecidableEq, Repr

/-- `true` exactly on the boolean `true` result value. -/
def isTrueRes {ε : Type} : JqResult ε → Bool
  | .boolVal true => true
  | _ => false

/-- `true` exactly on the non-boolean, non-error result values. -/
def isNonBoolRes {ε : Type} : JqResult ε → Bool
  | .nonBool => true
  | _ => false

/-- `true` exactly on the error result values. -/
def isErrRes {ε : Type} : JqResult ε → Bool
  | .errVal _ => true
  | _ => false

/-- `true` exactly on the `diag` event. -/
def isDiagEv {δ : Type} : Ev δ → Bool
  | .diag => true
  | _ => false

/-- The inner `for { result, ok := iter.Next(); ... }` loop of
`GetResourcesByJq` over one item's result values, src/main.go lines 207-224.
Returns `(number of diagnostics printed, number of times the item was appended
to `resources`, the aborting error if one result value was an error)`.  The
loop stops at the first error value (`return nil, err`); results after it are
never inspected. -/
def scanResults {ε : Type} : List (JqResult ε) → Nat × Nat × Option ε
  | [] => (0, 0, none)
  | .errVal e :: _ => (0, 0, some e)
  | .boolVal b :: rest =>
    let s := scanResults rest
    (s.1, (if b then s.2.1 + 1 else s.2.1), s.2.2)
  | .nonBool :: rest =>
    let s := scanResults rest
    (s.1 + 1, s.2.1, s.2.2)

/-- `GetResourcesDynamically`, src/main.go lines 229-246: performs the
dynamic `List` call and passes `list.Items` through unmodified, or propagates
the call's error.  The network call itself is the `listResult` parameter. -/
def GetResourcesDynamically {δ ε : Type} (listResult : Except ε (List δ)) :
    Except ε (List δ) :=
  match listResult with
  | .error e => .error e
  | .ok list => .ok list

/-- The `for _, item := range items` loop of `GetResourcesByJq`,
src/main.go lines 197-225: convert each item, run the query, scan the result
values.  Returns the event trace and either the accumulated `resources` list
or the first error (`return nil, err` aborts the whole loop). -/
def filterItems {δ ν κ ε : Type} (fromUnstructured : δ → Except ε ν)
    (run : κ → ν → List (JqResult ε)) (query : κ) :
    List δ → List (Ev δ) × Except ε (List δ)
  | [] => ([], .ok [])
  | item :: rest =>
    match fromUnstructured item with
    | .error e => ([.converted item], .error e)
    | .ok rawJson =>
      let s := scanResults (run query rawJson)
      let evs := Ev.converted item :: Ev.evaluated item ::
        List.replicate s.1 Ev.diag
      match s.2.2 with
      | some e => (evs, .error e)
      | none =>
        let r := filterItems fromUnstructured run query rest
        (evs ++ r.1,
          match r.2 with
          | .error e => .error e
          | .ok l => .ok (List.replicate s.2.1 item ++ l))

/-- `GetResourcesByJq`, src/main.go lines 181-227: parse the jq expression
(returning its error before anything else runs), list the resources through
`GetResourcesDynamically`, then filter with `filterItems`.  The first
component is the event trace, the second the returned `([]Unstructured,
error)` pair. -/
def GetResourcesByJq {δ ν κ ε : Type} (parse : String → Except ε κ)
    (fromUnstructured : δ → Except ε ν) (run : κ → ν → List (JqResult ε))
    (listResult : Except ε (List δ)) (jq : String) :
    List (Ev δ) × Except ε (List δ) :=
  match parse jq with
  | .error e => ([], .error e)
  | .ok query =>
    match GetResourcesDynamically listResult with
    | .error e => ([Ev.listCalled], .error e)
    | .ok items =>
      let r := filterItems fromUnstructured run query items
      (Ev.listCalled :: r.1, r.2)

/-- Called twice with the same arguments, as the spec's idempotence property
describes: the pair of the two calls' results.  The Go function allocates a
fresh `resources` slice per call and a parsed gojq query is immutable, so both
calls are applications of the same pure function. -/
def applyTwice {δ ν κ ε : Type} (parse : String → Except ε κ)
    (fromUnstructured : δ → Except ε ν) (run : κ → ν → List (JqResult ε))
    (listResult : Except ε (List δ)) (jq : String) :
    (List (Ev δ) × Except ε (List δ)) × (List (Ev δ) × Except ε (List δ)) :=
  (GetResourcesByJq parse fromUnstructured run listResult jq,
   GetResourcesByJq parse fromUnstructured run listResult jq)

/-- `schema.GroupVersionKind` as read off the decoded manifest. -/
structure GroupVersionKind where
  group : String
  version : String
  kind : String
deriving DecidableEq, Repr

/-- `schema.GroupVersionResource`, the coordinate handed to
`dynamicClient.Resource`. -/
structure GroupVersionResource where
  group : String
  version : String
  resource : String
deriving DecidableEq, Repr

/-- `GroupVersion()` on a GVK: drops the kind. -/
def groupVersion (gvk : GroupVersionKind) : String × String :=
  (gvk.group, gvk.version)

/-- `GroupVersion().WithResource(r)`: pairs the group/version with a resource
name. -/
def withResource (gv : String × String) (resource : String) :
    GroupVersionResource :=
  { group := gv.1, version := gv.2, resource := resource }

/-- The coordinate derivation of `main`, src/main.go lines 64-80 (identical in
src/unnamed/part_000 lines 63-79): take the manifest's GVK and namespace,
default the version to "v1" and the namespace to "default" when empty, and
build the resource coordinate from `strings.ToLower(gvk.Kind) + "s"`. -/
def mainResourceCoordinate (manifestGvk : GroupVersionKind)
    (manifestNamespace : String) : GroupVersionResource × String :=
  let gvk := manifestGvk
  let ns := manifestNamespace
  let gvk := if gvk.version = "" then { gvk with version := "v1" } else gvk
  let ns := if ns = "" then "default" else ns
  (withResource (groupVersion gvk) (gvk.kind.toLower ++ "s"), ns)

/-- The unstructured JSON-like tree a cluster object deserializes to:
`map[string]interface{}` with string, number, boolean, null, nested map and
slice values. -/
inductive JVal where
  | nullV
  | boolV (b : Bool)
  | numV (n : Int)
  | strV (s : String)
  | arrV (xs : List JVal)
  | objV (fields : List (String × JVal))

/-- Result of the `unstructured.Nested*` accessors: `(value, true, nil)`,
`(zero, false, nil)` when a key is absent, or `(zero, false, err)` when a
value along the path has the wrong type. -/
inductive NestedRes (α : Type) where
  | foundV (v : α)
  | absent
  | fieldErr (msg : String)

/-- `unstructured.NestedFieldNoCopy(obj, fields...)`: walk the field path;
an absent key yields not-found, a non-map intermediate value yields an
error. -/
def nestedFieldNoCopy : JVal → List String → NestedRes JVal
  | v, [] => .foundV v
  | v, f :: rest =>
    match v with
    | .objV m =>
      match m.lookup f with
      | some v2 => nestedFieldNoCopy v2 rest
      | none => .absent
    | _ => .fieldErr "value is not a map"

/-- `unstructured.NestedSlice`: the nested field must be a slice. -/
def nestedSlice (obj : JVal) (fields : List String) : NestedRes (List JVal) :=
  match nestedFieldNoCopy obj fields with
  | .foundV (.arrV xs) => .foundV xs
  | .foundV _ => .fieldErr "value is not a slice"
  | .absent => .absent
  | .fieldErr m => .fieldErr m

/-- `unstructured.NestedString`: the nested field must be a string. -/
def nestedString (obj : JVal) (fields : List String) : NestedRes String :=
  match nestedFieldNoCopy obj fields with
  | .foundV (.strV s) => .foundV s
  | .foundV _ => .fieldErr "value is not a string"
  | .absent => .absent
  | .fieldErr m => .fieldErr m

/-- What a `GetContainerImage` call does: return a string, or panic (the
`containers[0]` index on an empty slice). -/
inductive ImgOutcome where
  | ret (s : String)
  | panicked
deriving DecidableEq, Repr

/-- The body of the `for _, item := range list.Items` loop of
`GetContainerImage`, src/unnamed/part_000 lines 116-152.  `some out` means the
body executed a `return` (or panicked); `none` would mean it fell through to
the next iteration — no path of the Go body does. -/
def imageLoopBody (item : JVal) : Option ImgOutcome :=
  match nestedSlice item ["spec", "template", "spec", "containers"] with
  | .fieldErr m =>
    some (.ret ("Error extracting containers slice: " ++ m ++ "\n"))
  | .absent => some (.ret "Containers slice not found\n")
  | .foundV containers =>
    match containers with
    | [] => some .panicked
    | firstContainer :: _ =>
      match firstContainer with
      | .objV m =>
        match nestedString (.objV m) ["image"] with
        | .fieldErr m2 =>
          some (.ret ("Error extracting container image name: " ++ m2 ++ "\n"))
        | .absent => some (.ret "Container image name field not found\n")
        | .foundV imageName => some (.ret imageName)
      | _ => some (.ret "First item in containers slice is not a map\n")

/-- The `for _, item := range list.Items` loop itself, falling through to the
final `return ""` when the items run out. -/
def imageLoop : List JVal → ImgOutcome
  | [] => .ret ""
  | item :: rest =>
    match imageLoopBody item with
    | some out => out
    | none => imageLoop rest

/-- `GetContainerImage`, src/unnamed/part_000 lines 108-155: list the
resources (returning the error's message string on failure) and run the
loop. -/
def GetContainerImage (listResult : Except String (List JVal)) : ImgOutcome :=
  match listResult with
  | .error e => .ret e
  | .ok list => imageLoop list

/-- Scanning a result list with no error value: no abort, one append per
boolean `true`, one diagnostic per non-boolean value. -/
theorem scanResults_no_err {ε : Type} (rs : List (JqResult ε))
    (h : ∀ r ∈ rs, isErrRes r = false) :
    scanResults rs = (rs.countP isNonBoolRes, rs.countP isTrueRes, none) := by
  induction rs with
  | nil => simp [scanResults]
  | cons r rest ih =>
    have hrest : ∀ x ∈ rest, isErrRes x = false := fun x hx =>
      h x (List.mem_cons_of_mem _ hx)
    cases r with
    | errVal e =>
      have := h _ (List.mem_cons_self _ _)
      simp [isErrRes] at this
    | boolVal b =>
      cases b <;>
        simp [scanResults, ih hrest, List.countP_cons, isNonBoolRes, isTrueRes]
    | nonBool =>
      simp [scanResults, ih hrest, List.countP_cons, isNonBoolRes, isTrueRes,
        Nat.add_comm]

/-- The filtering loop, when every conversion succeeds and no result value is
an error: the trace records, per item in order, its conversion, its
evaluation, and one diagnostic per non-boolean result; the output repeats each
item once per boolean-true result, in input order. -/
theorem filterItems_total_no_err {δ ν κ ε : Type} (f : δ → ν)
    (run : κ → ν → List (JqResult ε)) (q : κ) (docs : List δ)
    (h : ∀ d ∈ docs, ∀ r ∈ run q (f d), isErrRes r = false) :
    filterItems (fun d => Except.ok (f d)) run q docs =
      (docs.flatMap (fun d => Ev.converted d :: Ev.evaluated d ::
          List.replicate ((run q (f d)).countP isNonBoolRes) Ev.diag),
        Except.ok (docs.flatMap
          (fun d => List.replicate ((run q (f d)).countP isTrueRes) d))) := by
  induction docs with
  | nil => simp [filterItems]
  | cons d rest ih =>
    have hd : ∀ r ∈ run q (f d), isErrRes r = false :=
      fun r hr => h d (List.mem_cons_self _ _) r hr
    have hrest : ∀ x ∈ rest, ∀ r ∈ run q (f x), isErrRes r = false :=
      fun x hx => h x (List.mem_cons_of_mem _ hx)
    simp [filterItems, scanResults_no_err _ hd, ih hrest, List.flatMap_cons]

/-- Scanning stops at the first error value and reports it. -/
theorem scanResults_first_err {ε : Type} (rs1 rs2 : List (JqResult ε)) (e : ε)
    (h : ∀ r ∈ rs1, isErrRes r = false) :
    (scanResults (rs1 ++ JqResult.errVal e :: rs2)).2.2 = some e := by
  induction rs1 with
  | nil => simp [scanResults]
  | cons r rest ih =>
    have hrest : ∀ x ∈ rest, isErrRes x = false := fun x hx =>
      h x (List.mem_cons_of_mem _ hx)
    cases r with
    | errVal e2 =>
      have := h _ (List.mem_cons_self _ _)
      simp [isErrRes] at this
    | boolVal b => simpa [scanResults] using ih hrest
    | nonBool => simpa [scanResults] using ih hrest

/-- The diagnostic count of a trace produced by the filtering loop equals the
sum of the per-item diagnostic counts. -/
theorem countP_diag_trace {δ : Type} (docs : List δ) (g : δ → Nat) :
    (docs.flatMap (fun d => Ev.converted d :: Ev.evaluated d ::
        List.replicate (g d) Ev.diag)).countP isDiagEv = (docs.map g).sum := by
  induction docs with
  | nil => simp
  | cons d rest ih =>
    simp [List.flatMap_cons, List.countP_append, List.countP_cons,
      List.countP_replicate, isDiagEv, ih, Nat.add_comm]

/-- Every path of the `GetContainerImage` loop body executes a `return` (or
panics): none falls through to a second iteration. -/
theorem imageLoopBody_isSome (item : JVal) : (imageLoopBody item).isSome := by
  unfold imageLoopBody
  repeat' split
  all_goals rfl

/-- C1 (counterexample): one document whose evaluation yields boolean `true`
twice is appended twice — `resources = append(resources, item)` runs once per
`true` result, so the output `[0, 0]` is not a subsequence of the input `[0]`
and the document is duplicated. -/
theorem getResourcesByJq_not_subsequence :
    (GetResourcesByJq (fun _ => (Except.ok () : Except String Unit))
        (fun _ => Except.ok ())
        (fun _ _ => [JqResult.boolVal true, JqResult.boolVal true])
        (Except.ok [(0 : Nat)]) "q").2 = Except.ok [0, 0]
    ∧ ¬ ([0, 0] : List Nat).Sublist [0] :=
  ⟨rfl, by decide⟩

/-- C1 (amended): for every compiled query and input list where every
conversion succeeds and no evaluation yields an error value, the output of
`GetResourcesByJq` preserves the input's order and synthesizes no document,
but each document is appended once per boolean-true result value: the output
is the input list with each document repeated as many times as its evaluation
yields `true`. -/
theorem getResourcesByJq_ordered_with_multiplicity {δ ν κ ε : Type}
    (parse : String → Except ε κ) (f : δ → ν)
    (run : κ → ν → List (JqResult ε)) (jq : String) (q : κ) (docs : List δ)
    (hp : parse jq = Except.ok q)
    (h : ∀ d ∈ docs, ∀ r ∈ run q (f d), isErrRes r = false) :
    (GetResourcesByJq parse (fun d => Except.ok (f d)) run
        (Except.ok docs) jq).2
      = Except.ok (docs.flatMap
          (fun d => List.replicate ((run q (f d)).countP isTrueRes) d)) := by
  simp [GetResourcesByJq, hp, GetResourcesDynamically,
    filterItems_total_no_err f run q docs h]

/-- Witness for the amended C1 theorem at a concrete double-`true` input. -/
theorem getResourcesByJq_ordered_with_multiplicity_witness :
    (GetResourcesByJq (fun _ => (Except.ok () : Except String Unit))
        (fun _ => Except.ok ())
        (fun _ _ => [JqResult.boolVal true, JqResult.boolVal true])
        (Except.ok [(0 : Nat)]) "q").2 = Except.ok [0, 0] :=
  (getResourcesByJq_ordered_with_multiplicity
    (fun _ => (Except.ok () : Except String Unit)) (fun _ => ())
    (fun _ _ => [JqResult.boolVal true, JqResult.boolVal true]) "q" ()
    [(0 : Nat)] rfl (by decide)).trans rfl

/-- C2: when every conversion succeeds and no result value is an error, the
output of `GetResourcesByJq` contains exactly those input documents whose
evaluation yields boolean `true` on at least one result value; documents
yielding only `false`, non-boolean, or zero results never appear. -/
theorem getResourcesByJq_membership {δ ν κ ε : Type}
    (parse : String → Except ε κ) (f : δ → ν)
    (run : κ → ν → List (JqResult ε)) (jq : String) (q : κ) (docs : List δ)
    (hp : parse jq = Except.ok q)
    (h : ∀ d ∈ docs, ∀ r ∈ run q (f d), isErrRes r = false) :
    ∃ out, (GetResourcesByJq parse (fun d => Except.ok (f d)) run
        (Except.ok docs) jq).2 = Except.ok out
      ∧ ∀ x, x ∈ out ↔ (x ∈ docs ∧ ∃ r ∈ run q (f x), isTrueRes r = true) := by
  refine ⟨docs.flatMap
      (fun d => List.replicate ((run q (f d)).countP isTrueRes) d), ?_, ?_⟩
  · simp [GetResourcesByJq, hp, GetResourcesDynamically,
      filterItems_total_no_err f run q docs h]
  · intro x
    simp only [List.mem_flatMap, List.mem_replicate]
    constructor
    · rintro ⟨a, ha, hne, rfl⟩
      exact ⟨ha, List.countP_pos_iff.mp (Nat.pos_of_ne_zero hne)⟩
    · rintro ⟨hx, r, hr, htr⟩
      exact ⟨x, hx, Nat.pos_iff_ne_zero.mp
        (List.countP_pos_iff.mpr ⟨r, hr, htr⟩), rfl⟩

/-- Witness for C2: a single matching document is returned, a single
non-matching one is not. -/
theorem getResourcesByJq_membership_witness :
    ∃ out, (GetResourcesByJq (fun _ => (Except.ok () : Except String Unit))
        (fun _ => Except.ok ())
        (fun _ _ => [JqResult.boolVal true])
        (Except.ok [(0 : Nat)]) "q").2 = Except.ok out
      ∧ ∀ x, x ∈ out ↔ (x ∈ [(0 : Nat)] ∧
          ∃ r ∈ ([JqResult.boolVal true] : List (JqResult String)),
            isTrueRes r = true) :=
  getResourcesByJq_membership _ _ _ _ _ _ rfl (by decide)

/-- C3: if some document's evaluation yields an error value (after
error-free documents before it and error-free result values before the error),
the whole `GetResourcesByJq` call returns exactly that error: no partial
output survives, matches on earlier documents included. -/
theorem getResourcesByJq_error_aborts {δ ν κ ε : Type}
    (parse : String → Except ε κ) (f : δ → ν)
    (run : κ → ν → List (JqResult ε)) (jq : String) (q : κ)
    (pre : List δ) (bad : δ) (post : List δ) (e : ε)
    (rs1 rs2 : List (JqResult ε))
    (hp : parse jq = Except.ok q)
    (hpre : ∀ d ∈ pre, ∀ r ∈ run q (f d), isErrRes r = false)
    (hbad : run q (f bad) = rs1 ++ JqResult.errVal e :: rs2)
    (hrs1 : ∀ r ∈ rs1, isErrRes r = false) :
    (GetResourcesByJq parse (fun d => Except.ok (f d)) run
        (Except.ok (pre ++ bad :: post)) jq).2 = Except.error e := by
  have hscan : (scanResults (run q (f bad))).2.2 = some e := by
    rw [hbad]; exact scanResults_first_err rs1 rs2 e hrs1
  have hfil : (filterItems (fun d => Except.ok (f d)) run q
      (pre ++ bad :: post)).2 = Except.error e := by
    induction pre with
    | nil =>
      simp only [List.nil_append, filterItems]
      rw [hscan]
    | cons d rest ih =>
      have hd : ∀ r ∈ run q (f d), isErrRes r = false :=
        fun r hr => hpre d (List.mem_cons_self _ _) r hr
      have hrest : ∀ x ∈ rest, ∀ r ∈ run q (f x), isErrRes r = false :=
        fun x hx => hpre x (List.mem_cons_of_mem _ hx)
      simp only [List.cons_append, filterItems, scanResults_no_err _ hd,
        List.append_eq]
      rw [ih hrest]
  simp [GetResourcesByJq, GetResourcesDynamically, hp, hfil]

/-- Witness for C3: the error on the second document aborts everything,
including the match already found on the first. -/
theorem getResourcesByJq_error_aborts_witness :
    (GetResourcesByJq (fun _ => (Except.ok () : Except String Unit))
        (fun d => Except.ok d)
        (fun _ v => if v = 0 then [JqResult.boolVal true]
          else [JqResult.nonBool, JqResult.errVal "boom", JqResult.boolVal true])
        (Except.ok ([0] ++ 1 :: [2])) "q").2 = Except.error "boom" :=
  getResourcesByJq_error_aborts _ (fun d => d) _ _ _ [0] 1 [2] "boom"
    [JqResult.nonBool] [JqResult.boolVal true] rfl (by decide) (by decide)
    (by decide)

/-- C4: the per-document scan does not short-circuit on the first boolean
`true`: prepending a `true` result leaves the event trace (diagnostics
included) and the error outcome of the remaining results unchanged, only
adding one inclusion of the document when no error aborts — so a later error
still aborts the call and a later non-boolean value still emits its
diagnostic. -/
theorem getResourcesByJq_no_short_circuit {δ κ ε : Type}
    (parse : String → Except ε κ) (jq : String) (q : κ)
    (hp : parse jq = Except.ok q) (item : δ) (rest : List (JqResult ε)) :
    (GetResourcesByJq parse (fun _ => Except.ok ())
        (fun _ _ => JqResult.boolVal true :: rest) (Except.ok [item]) jq).1
      = (GetResourcesByJq parse (fun _ => Except.ok ())
          (fun _ _ => rest) (Except.ok [item]) jq).1
    ∧ (GetResourcesByJq parse (fun _ => Except.ok ())
        (fun _ _ => JqResult.boolVal true :: rest) (Except.ok [item]) jq).2
      = Except.map (fun l => item :: l)
          ((GetResourcesByJq parse (fun _ => Except.ok ())
            (fun _ _ => rest) (Except.ok [item]) jq).2) := by
  have hscan : scanResults (JqResult.boolVal true :: rest)
      = ((scanResults rest).1, (scanResults rest).2.1 + 1,
          (scanResults rest).2.2) := by
    simp [scanResults]
  cases hoe : (scanResults rest).2.2 with
  | some e =>
    constructor <;>
      simp [GetResourcesByJq, hp, GetResourcesDynamically, filterItems,
        hscan, hoe, Except.map]
  | none =>
    constructor <;>
      simp [GetResourcesByJq, hp, GetResourcesDynamically, filterItems,
        hscan, hoe, Except.map, List.replicate_succ]

/-- Witness for C4: after a `true`, a later non-boolean and a later error are
still observed. -/
theorem getResourcesByJq_no_short_circuit_witness :
    (GetResourcesByJq (fun _ => (Except.ok () : Except String Unit))
        (fun _ => Except.ok ())
        (fun _ _ => JqResult.boolVal true ::
          [JqResult.nonBool, JqResult.errVal "late"])
        (Except.ok [(0 : Nat)]) "q").1
      = (GetResourcesByJq (fun _ => (Except.ok () : Except String Unit))
          (fun _ => Except.ok ())
          (fun _ _ => [JqResult.nonBool, JqResult.errVal "late"])
          (Except.ok [(0 : Nat)]) "q").1
    ∧ (GetResourcesByJq (fun _ => (Except.ok () : Except String Unit))
        (fun _ => Except.ok ())
        (fun _ _ => JqResult.boolVal true ::
          [JqResult.nonBool, JqResult.errVal "late"])
        (Except.ok [(0 : Nat)]) "q").2
      = Except.map (fun l => (0 : Nat) :: l)
          ((GetResourcesByJq (fun _ => (Except.ok () : Except String Unit))
            (fun _ => Except.ok ())
            (fun _ _ => [JqResult.nonBool, JqResult.errVal "late"])
            (Except.ok [(0 : Nat)]) "q").2) :=
  getResourcesByJq_no_short_circuit
    (fun _ => (Except.ok () : Except String Unit)) "q" () rfl 0
    [JqResult.nonBool, JqResult.errVal "late"]

/-- C5: when no result value is an error, the trace carries one diagnostic
per non-boolean result value of every document — each one is reported and
scanning continues past it — and when every result value of every document is
non-boolean, the call returns an empty output with no error: a non-boolean
never causes an inclusion. -/
theorem getResourcesByJq_nonboolean_only {δ ν κ ε : Type}
    (parse : String → Except ε κ) (f : δ → ν)
    (run : κ → ν → List (JqResult ε)) (jq : String) (q : κ) (docs : List δ)
    (hp : parse jq = Except.ok q)
    (herr : ∀ d ∈ docs, ∀ r ∈ run q (f d), isErrRes r = false) :
    ((GetResourcesByJq parse (fun d => Except.ok (f d)) run
        (Except.ok docs) jq).1.countP isDiagEv)
      = (docs.map (fun d => (run q (f d)).countP isNonBoolRes)).sum
    ∧ ((∀ d ∈ docs, ∀ r ∈ run q (f d), r = JqResult.nonBool) →
        (GetResourcesByJq parse (fun d => Except.ok (f d)) run
          (Except.ok docs) jq).2 = Except.ok []
        ∧ ((GetResourcesByJq parse (fun d => Except.ok (f d)) run
            (Except.ok docs) jq).1.countP isDiagEv)
          = (docs.map (fun d => (run q (f d)).length)).sum) := by
  have hdiag : ((GetResourcesByJq parse (fun d => Except.ok (f d)) run
      (Except.ok docs) jq).1.countP isDiagEv)
      = (docs.map (fun d => (run q (f d)).countP isNonBoolRes)).sum := by
    simp only [GetResourcesByJq, hp, GetResourcesDynamically,
      filterItems_total_no_err f run q docs herr]
    rw [List.countP_cons_of_neg _ _ (by simp [isDiagEv])]
    exact countP_diag_trace docs _
  refine ⟨hdiag, fun h => ⟨?_, ?_⟩⟩
  · simp only [GetResourcesByJq, hp, GetResourcesDynamically,
      filterItems_total_no_err f run q docs herr]
    have : docs.flatMap
        (fun d => List.replicate ((run q (f d)).countP isTrueRes) d) = [] := by
      rw [List.flatMap_eq_nil_iff]
      intro d hd
      have : (run q (f d)).countP isTrueRes = 0 := by
        rw [List.countP_eq_zero]
        intro r hr
        rw [h d hd r hr]
        simp [isTrueRes]
      simp [this]
    rw [this]
  · have hcnt : ∀ d ∈ docs,
        (run q (f d)).countP isNonBoolRes = (run q (f d)).length := by
      intro d hd
      rw [List.countP_eq_length]
      intro r hr
      rw [h d hd r hr]
      rfl
    rw [hdiag, List.map_congr_left hcnt]

/-- Witness for C5: two non-boolean results on one document give two
diagnostics, an empty output and no error. -/
theorem getResourcesByJq_nonboolean_only_witness :
    ((GetResourcesByJq (fun _ => (Except.ok () : Except String Unit))
        (fun _ => Except.ok ())
        (fun _ _ => [JqResult.nonBool, JqResult.nonBool])
        (Except.ok [(5 : Nat)]) "q").1.countP isDiagEv)
      = ([(5 : Nat)].map (fun _ =>
          ([JqResult.nonBool, JqResult.nonBool] :
            List (JqResult String)).countP isNonBoolRes)).sum
    ∧ ((∀ d ∈ [(5 : Nat)], ∀ r ∈ ([JqResult.nonBool, JqResult.nonBool] :
          List (JqResult String)), r = JqResult.nonBool) →
        (GetResourcesByJq (fun _ => (Except.ok () : Except String Unit))
          (fun _ => Except.ok ())
          (fun _ _ => [JqResult.nonBool, JqResult.nonBool])
          (Except.ok [(5 : Nat)]) "q").2 = Except.ok []
        ∧ ((GetResourcesByJq (fun _ => (Except.ok () : Except String Unit))
            (fun _ => Except.ok ())
            (fun _ _ => [JqResult.nonBool, JqResult.nonBool])
            (Except.ok [(5 : Nat)]) "q").1.countP isDiagEv)
          = ([(5 : Nat)].map (fun _ =>
              ([JqResult.nonBool, JqResult.nonBool] :
                List (JqResult String)).length)).sum) :=
  getResourcesByJq_nonboolean_only
    (fun _ => (Except.ok () : Except String Unit)) (fun _ => ())
    (fun _ _ => [JqResult.nonBool, JqResult.nonBool]) "q" () [(5 : Nat)]
    rfl (by decide)

/-- C6: a failing query parse returns the compile error with an empty event
trace — the resource listing is never invoked and no document is converted or
evaluated. -/
theorem getResourcesByJq_compile_error_first {δ ν κ ε : Type}
    (parse : String → Except ε κ) (fromUnstructured : δ → Except ε ν)
    (run : κ → ν → List (JqResult ε)) (listResult : Except ε (List δ))
    (jq : String) (e : ε) (hp : parse jq = Except.error e) :
    GetResourcesByJq parse fromUnstructured run listResult jq
      = ([], Except.error e) := by
  simp [GetResourcesByJq, hp]

/-- Witness for C6 at a concrete failing parse. -/
theorem getResourcesByJq_compile_error_first_witness :
    GetResourcesByJq (fun _ => (Except.error "unexpected token" :
          Except String Unit))
        (fun _ => (Except.ok () : Except String Unit))
        (fun _ _ => []) (Except.ok [(3 : Nat)]) "[" 
      = ([], Except.error "unexpected token") :=
  getResourcesByJq_compile_error_first _ _ _ _ "[" "unexpected token" rfl

/-- C7: applying the same compiled query twice to the same input yields
identical results — the embedded filter is a pure function of its arguments,
matching the Go code's fresh per-call `resources` slice and immutable parsed
query. -/
theorem getResourcesByJq_idempotent {δ ν κ ε : Type}
    (parse : String → Except ε κ) (fromUnstructured : δ → Except ε ν)
    (run : κ → ν → List (JqResult ε)) (listResult : Except ε (List δ))
    (jq : String) :
    (applyTwice parse fromUnstructured run listResult jq).1
      = (applyTwice parse fromUnstructured run listResult jq).2 := rfl

/-- C8: a successful listing is passed through unmodified by
`GetResourcesDynamically`; in particular a successful listing with zero
matching documents yields the empty sequence and no error. -/
theorem getResourcesDynamically_passthrough {δ ε : Type} :
    GetResourcesDynamically (Except.ok ([] : List δ) : Except ε (List δ))
      = Except.ok []
    ∧ ∀ items : List δ,
        GetResourcesDynamically (Except.ok items : Except ε (List δ))
          = Except.ok items :=
  ⟨rfl, fun _ => rfl⟩

/-- C9: the coordinate `main` hands to the dynamic client keeps the
manifest's group, uses `strings.ToLower(kind) + "s"` as the resource plural,
defaults the version to "v1" when the manifest specifies none, and defaults
the namespace to "default" when the manifest specifies none. -/
theorem mainResourceCoordinate_spec (gvk : GroupVersionKind) (ns : String) :
    (mainResourceCoordinate gvk ns).1.resource = gvk.kind.toLower ++ "s"
    ∧ (mainResourceCoordinate gvk ns).1.group = gvk.group
    ∧ (mainResourceCoordinate gvk ns).1.version
        = (if gvk.version = "" then "v1" else gvk.version)
    ∧ (mainResourceCoordinate gvk ns).2 = (if ns = "" then "default" else ns) := by
  unfold mainResourceCoordinate withResource groupVersion
  by_cases h1 : gvk.version = "" <;> by_cases h2 : ns = "" <;> simp [h1, h2]

/-- C10: `GetContainerImage` decides everything on the first listed item: a
listing error comes back as a plain message string, an empty listing returns
the empty string, any further items are ignored, and a well-formed first item
yields exactly the image of its first container. -/
theorem getContainerImage_first_item_only :
    (∀ e, GetContainerImage (Except.error e) = ImgOutcome.ret e)
    ∧ GetContainerImage (Except.ok []) = ImgOutcome.ret ""
    ∧ (∀ item rest, GetContainerImage (Except.ok (item :: rest))
        = GetContainerImage (Except.ok [item]))
    ∧ (∀ img others more, GetContainerImage (Except.ok
        (JVal.objV [("spec", JVal.objV [("template", JVal.objV [("spec",
          JVal.objV [("containers", JVal.arrV (JVal.objV [("image",
          JVal.strV img)] :: others))])])])] :: more)) = ImgOutcome.ret img) := by
  refine ⟨fun e => rfl, rfl, ?_, ?_⟩
  · intro item rest
    show imageLoop (item :: rest) = imageLoop [item]
    have h := imageLoopBody_isSome item
    cases hb : imageLoopBody item with
    | none => rw [hb] at h; simp at h
    | some out => simp [imageLoop, hb]
  · intro img others more
    rfl
